import Mathlib

/-
Verification of the framebuffer-and-reactor subsystem of speculos
(src/speculos/mcu/screen.py), as a shallow embedding in Lean 4.

Conventions of the embedding:
- Python dicts keyed by pixel coordinates become insertion-ordered
  association lists `List ((Nat × Nat) × Nat)`; the Python dict
  key-uniqueness invariant becomes the `keysNodup` hypothesis.
- Pixmaps and screenshot snapshots become total functions
  `Nat × Nat → Nat` (coordinate to RGB color).
- Qt side effects (drawing a point, pushing a diff to the VNC sink,
  scaling a pixmap, blitting) become explicit `RenderEvent` values in
  the order the code performs them.
- Python exceptions become `Option`/`Except` results; a failed
  `assert` or a `KeyError`/`AttributeError` is `none`, a raised
  exception value is `Except.error`.
- Python floor division `//` on integers becomes `Int.fdiv`.
-/

namespace Speculos

/-- BUTTON_LEFT constant from screen.py. -/
def BUTTON_LEFT : Nat := 1

/-- BUTTON_RIGHT constant from screen.py. -/
def BUTTON_RIGHT : Nat := 2

/-- A pixel coordinate as used by the framebuffer dict keys. -/
abbrev Coord := Nat × Nat

/-- The dirty set `fb.pixels`: an insertion-ordered map from coordinate
to color, embedded as an association list. -/
abbrev PixelMap := List (Coord × Nat)

/-- The Python dict invariant: keys are unique. -/
def keysNodup (ps : PixelMap) : Prop := (ps.map Prod.fst).Nodup

instance (ps : PixelMap) : Decidable (keysNodup ps) := by
  unfold keysNodup; infer_instance

/-- Applying a list of pixel writes to an image, in list order
(last-write-wins per coordinate). -/
def applyPixels (img : Coord → Nat) (ps : PixelMap) : Coord → Nat :=
  ps.foldl (fun acc p => fun c => if c = p.1 then p.2 else acc c) img

/-- Observable rendering side effects of a paint cycle, in program order. -/
inductive RenderEvent where
  /-- `qp.drawPoint(x, y)` with pen color `color` inside `_redraw`:
  one raw pixel delivered to the on-screen target. -/
  | screenDraw (x y : Nat) (color : Nat)
  /-- `self.vnc.redraw(self.fb.pixels)`: the raw unscaled diff pushed
  once, as a whole, to the mirror sink. -/
  | vncDiff (pixels : PixelMap)
  /-- `self.mPixmap.scaled(...)`: the scaling copy of the off-screen
  pixmap. -/
  | scaleCopy
  /-- `qp.drawPixmap(0, 0, copied_pixmap)`: the final blit of the
  (possibly scaled) pixmap to the widget. -/
  | blit
deriving DecidableEq, Repr

/-- State of `PaintWidget` together with the parts of its `FrameBuffer`
`self.fb` that screen.py manipulates directly. -/
structure PaintWidget where
  /-- `self.fb.pixels`: the dirty set of pending writes. -/
  pixels : PixelMap
  /-- `self.mPixmap`: the committed off-screen image. -/
  mPixmap : Coord → Nat
  /-- The working screenshot snapshot held by `self.fb`
  (updated by `screenshot_update_pixels`). -/
  workingSnapshot : Coord → Nat
  /-- `self.pixel_size`: the integer magnification factor. -/
  pixel_size : Nat
  /-- Whether `self.vnc` is set (a mirror sink is present). -/
  hasVnc : Bool

/-- Modelled from the spec: `FrameBuffer.screenshot_update_pixels`
lives in `display.py`, which is not part of the given sources. Per the
spec (flushTo applies every dirty `(x,y,color)` to the working
snapshot; the working snapshot accumulates incremental commits), it
applies the pending dirty pixels to the working snapshot. -/
def screenshot_update_pixels (snap : Coord → Nat) (ps : PixelMap) : Coord → Nat :=
  applyPixels snap ps

/-- The events emitted by `PaintWidget._redraw`: one `drawPoint` per
dirty-set entry, in dict order, then the raw diff to the VNC mirror
sink when one is present. (`screenshot_update_pixels` is a state
update, captured in `paintEvent` below.) -/
def redrawEvents (w : PaintWidget) : List RenderEvent :=
  (w.pixels.map fun p => RenderEvent.screenDraw p.1.1 p.1.2 p.2) ++
    (if w.hasVnc then [RenderEvent.vncDiff w.pixels] else [])

/-- `PaintWidget.paintEvent`: when the dirty set is non-empty, build a
fresh pixmap from the old committed image plus the dirty pixels
(`_redraw`), push the diff to the sinks, update the working snapshot,
and clear the dirty set; then blit the pixmap, through a scaling copy
exactly when `pixel_size` is not 1. Returns the new state and the
emitted events in program order. -/
def paintEvent (w : PaintWidget) : PaintWidget × List RenderEvent :=
  let (w1, evs1) :=
    if w.pixels.isEmpty then (w, [])
    else
      ({ w with
          mPixmap := applyPixels w.mPixmap w.pixels,
          workingSnapshot := screenshot_update_pixels w.workingSnapshot w.pixels,
          pixels := [] },
        redrawEvents w)
  let evs2 := if w.pixel_size ≠ 1 then [RenderEvent.scaleCopy] else []
  (w1, evs1 ++ evs2 ++ [RenderEvent.blit])

/-- The repaint request issued by `PaintWidget.update`. -/
inductive Repaint where
  /-- `super().update()`: full-widget repaint. -/
  | full
  /-- `super().update(QRect(x, y, w, h))`: sub-rectangle repaint. -/
  | rect (x y w h : Int)
deriving DecidableEq, Repr

/-- Python truthiness of an `Optional[int]` argument: `None` and `0`
are falsy, every other integer is truthy. -/
def truthy (v : Option Int) : Bool :=
  match v with
  | none => false
  | some n => n != 0

/-- `PaintWidget.update(x, y, w, h)`: requests a sub-rectangle repaint
when all four arguments are truthy, a full repaint otherwise, and
returns whether the dirty set is non-empty (`self.fb.pixels != {}`). -/
def PaintWidget.update (pw : PaintWidget) (x y w h : Option Int) : Repaint × Bool :=
  if truthy x && truthy y && truthy w && truthy h then
    (Repaint.rect (x.getD 0) (y.getD 0) (w.getD 0) (h.getD 0), !pw.pixels.isEmpty)
  else
    (Repaint.full, !pw.pixels.isEmpty)

/- Helper lemmas about applyPixels. -/

theorem applyPixels_nil (img : Coord → Nat) : applyPixels img [] = img := rfl

theorem applyPixels_cons (img : Coord → Nat) (p : Coord × Nat) (ps : PixelMap) :
    applyPixels img (p :: ps) =
      applyPixels (fun c => if c = p.1 then p.2 else img c) ps := rfl

theorem applyPixels_not_mem (img : Coord → Nat) (ps : PixelMap) (c : Coord)
    (h : ∀ p ∈ ps, p.1 ≠ c) : applyPixels img ps c = img c := by
  induction ps generalizing img with
  | nil => rfl
  | cons p rest ih =>
    rw [applyPixels_cons]
    rw [ih _ (fun q hq => h q (List.mem_cons_of_mem p hq))]
    exact if_neg (fun hc => h p (List.mem_cons_self p rest) hc.symm)

theorem applyPixels_mem (img : Coord → Nat) (ps : PixelMap) (c : Coord) (col : Nat)
    (hnd : keysNodup ps) (hmem : (c, col) ∈ ps) : applyPixels img ps c = col := by
  induction ps generalizing img with
  | nil => cases hmem
  | cons p rest ih =>
    have hnd' : keysNodup rest := by
      unfold keysNodup at hnd ⊢
      exact (List.nodup_cons.mp hnd).2
    rcases List.mem_cons.mp hmem with heq | hrest
    · subst heq
      rw [applyPixels_cons]
      have hnotin : ∀ q ∈ rest, q.1 ≠ (c, col).1 := by
        intro q hq hqc
        have : (c, col).1 ∈ rest.map Prod.fst := hqc ▸ List.mem_map_of_mem Prod.fst hq
        exact (List.nodup_cons.mp hnd).1 this
      rw [applyPixels_not_mem _ _ _ hnotin]
      simp
    · have hkey : p.1 ≠ c := by
        intro hpc
        have : p.1 ∈ rest.map Prod.fst := by
          rw [hpc]
          exact List.mem_map_of_mem Prod.fst hrest
        exact (List.nodup_cons.mp hnd).1 this
      rw [applyPixels_cons]
      exact ih _ hnd' hrest

/- Input translation: the App mouse handlers (screen.py lines 164-184). -/

/-- A touch command handed to the secure-element link via
`self.seph.handle_finger(x, y, pressed)`. -/
structure TouchCmd where
  x : Int
  y : Int
  pressed : Bool
deriving DecidableEq, Repr

/-- The part of the `App` window state that the mouse handlers use. -/
structure AppState where
  /-- `self._width`: screen width from the device model. -/
  width : Int
  /-- `self._height`: screen height from the device model. -/
  height : Int
  /-- `self.pixel_size`: the integer magnification factor. -/
  pixel_size : Int
  /-- `self.box_position_x` from the device model. -/
  box_position_x : Int
  /-- `self.box_position_y` from the device model. -/
  box_position_y : Int
  /-- `self.mouse_offset`: the raw position stored by the last
  `mousePressEvent`; `none` before any press (reading it then raises
  `AttributeError`). -/
  mouse_offset : Option (Int × Int)
deriving DecidableEq, Repr

/-- The coordinate translation performed by `App._get_x_y` on a raw
window-relative position: floor-divide by `pixel_size` and subtract
the box offset plus one. -/
def translate (a : AppState) (m : Int × Int) : Int × Int :=
  (m.1.fdiv a.pixel_size - (a.box_position_x + 1),
   m.2.fdiv a.pixel_size - (a.box_position_y + 1))

/-- `App._get_x_y`: translates `self.mouse_offset`; `none` when
`mouse_offset` was never set. -/
def get_x_y (a : AppState) : Option (Int × Int) :=
  a.mouse_offset.map (translate a)

/-- The bounds filter used by both mouse handlers:
`x >= 0 and x < self._width and y >= 0 and y < self._height`. -/
def inBounds (a : AppState) (t : Int × Int) : Prop :=
  0 ≤ t.1 ∧ t.1 < a.width ∧ 0 ≤ t.2 ∧ t.2 < a.height

instance (a : AppState) (t : Int × Int) : Decidable (inBounds a t) := by
  unfold inBounds; infer_instance

/-- `App.mousePressEvent`: stores the raw event position in
`mouse_offset`, translates it, and forwards `(x, y, True)` to the
secure-element link exactly when the translated point is in bounds. -/
def mousePressEvent (a : AppState) (rawX rawY : Int) : AppState × Option TouchCmd :=
  let a1 := { a with mouse_offset := some (rawX, rawY) }
  let t := translate a1 (rawX, rawY)
  if inBounds a1 t then (a1, some ⟨t.1, t.2, true⟩) else (a1, none)

/-- `App.mouseReleaseEvent`: calls `self._get_x_y()`, which reads the
STORED `self.mouse_offset` (the raw position of the last press); the
release event object and its own position are never consulted. Returns
`none` when `mouse_offset` was never set (`AttributeError`). -/
def mouseReleaseEvent (a : AppState) (rawX rawY : Int) :
    Option (AppState × Option TouchCmd) :=
  match get_x_y a with
  | none => none
  | some t =>
    some (a, if inBounds a t then some ⟨t.1, t.2, false⟩ else none)

/-- The release handler as the spec words it (for comparison with the
code): translate the RELEASE event raw position itself and filter it
by the same bounds check. -/
def mouseReleaseEventSpec (a : AppState) (rawX rawY : Int) : Option TouchCmd :=
  let t := translate a (rawX, rawY)
  if inBounds a t then some ⟨t.1, t.2, false⟩ else none

/- The Screen reactor: notifier registration (screen.py lines 217-239). -/

/-- The state of one registered `QSocketNotifier`. -/
structure NotifierState where
  /-- Whether readiness delivery is enabled (`setEnabled`). Qt creates
  notifiers enabled. -/
  enabled : Bool
deriving DecidableEq, Repr

/-- The `Screen.notifiers` mapping from file descriptor to notifier,
embedded as an insertion-ordered association list. -/
structure ScreenState where
  notifiers : List (Nat × NotifierState)
deriving DecidableEq, Repr

/-- Dict lookup `self.notifiers[fd]` (first entry with the key). -/
def findNotifier (l : List (Nat × NotifierState)) (fd : Nat) : Option NotifierState :=
  match l with
  | [] => none
  | (k, n) :: rest => if k = fd then some n else findNotifier rest fd

/-- `Screen.add_notifier`: creates an (enabled) notifier for
`klass.fileno`, asserts the fd is not yet registered, then stores it.
`none` is the fatal `AssertionError` on a duplicate registration. -/
def add_notifier (st : ScreenState) (fd : Nat) : Option ScreenState :=
  if (findNotifier st.notifiers fd).isSome then none
  else some ⟨st.notifiers ++ [(fd, ⟨true⟩)]⟩

/-- `Screen.enable_notifier`: `self.notifiers[fd].setEnabled(enabled)`.
`none` is the `KeyError` on an unregistered fd. -/
def enable_notifier (st : ScreenState) (fd : Nat) (enabled : Bool) : Option ScreenState :=
  if (findNotifier st.notifiers fd).isSome then
    some ⟨st.notifiers.map fun p => if p.1 = fd then (p.1, ⟨enabled⟩) else p⟩
  else none

/-- The micro-steps `Screen.remove_notifier` performs, in order. -/
inductive TeardownStep where
  /-- `self.enable_notifier(fd, False)`: readiness delivery disabled. -/
  | disableDelivery (fd : Nat)
  /-- `self.notifiers.pop(fd)`: the entry detached from the mapping. -/
  | detach (fd : Nat)
  /-- `n.disconnect()`: the Qt signal connection dropped. -/
  | disconnect (fd : Nat)
deriving DecidableEq, Repr

/-- `Screen.remove_notifier`: first disables the notifier, then pops it
from the mapping and disconnects it. Returns the new state and the
ordered list of micro-steps; `none` is the `KeyError` on an
unregistered fd. -/
def remove_notifier (st : ScreenState) (fd : Nat) :
    Option (ScreenState × List TeardownStep) :=
  match enable_notifier st fd false with
  | none => none
  | some st1 =>
    some (⟨st1.notifiers.filter fun p => p.1 != fd⟩,
      [TeardownStep.disableDelivery fd, TeardownStep.detach fd,
       TeardownStep.disconnect fd])

/-- Whether a readiness callback can still fire for `fd`: Qt delivers
`activated` only for a notifier that is registered and enabled. -/
def canDeliver (st : ScreenState) (fd : Nat) : Bool :=
  match findNotifier st.notifiers fd with
  | none => false
  | some n => n.enabled

/- The readiness dispatch wrapper `Screen.klass_can_read`
(screen.py lines 217-223). -/

/-- Outcome of one `klass.can_read(s, self)` invocation. -/
inductive CanReadResult where
  /-- The handler returned normally. -/
  | ok
  /-- The handler raised `ReadError`: no more data available. -/
  | readError
  /-- The handler raised any other exception, identified by a code. -/
  | raised (code : Nat)
deriving DecidableEq, Repr

/-- A request made to the owning window/session. -/
inductive AppAction where
  /-- `self.app.close()`: close the session. -/
  | close
deriving DecidableEq, Repr

/-- `Screen.klass_can_read`: invokes the handler; `ReadError` alone is
caught and converted into a single `self.app.close()` request; any
other exception propagates unchanged; the notifier table is not
touched. -/
def klass_can_read (st : ScreenState) (outcome : CanReadResult) :
    Except Nat (ScreenState × List AppAction) :=
  match outcome with
  | CanReadResult.ok => Except.ok (st, [])
  | CanReadResult.readError => Except.ok (st, [AppAction.close])
  | CanReadResult.raised e => Except.error e

/- Key events: `Screen._key_event` (screen.py lines 241-251). -/

/-- The keys the handler distinguishes; `other` covers every remaining
Qt key code. -/
inductive Key where
  | left
  | right
  | down
  | qkey
  | other (code : Nat)
deriving DecidableEq, Repr

/-- A button command handed to the secure-element link via
`self.seph.handle_button(code, pressed)`. -/
structure ButtonCmd where
  code : Nat
  pressed : Bool
deriving DecidableEq, Repr

/-- `Screen._key_event`: Left forwards button 1, Right button 2, Down
both (same press state); Q requests close on release only; everything
else is ignored. Returns the forwarded button commands in order and
the session requests. -/
def key_event (k : Key) (pressed : Bool) : List ButtonCmd × List AppAction :=
  match k with
  | Key.left => ([⟨BUTTON_LEFT, pressed⟩], [])
  | Key.right => ([⟨BUTTON_RIGHT, pressed⟩], [])
  | Key.down => ([⟨BUTTON_LEFT, pressed⟩, ⟨BUTTON_RIGHT, pressed⟩], [])
  | Key.qkey => ([], if pressed then [] else [AppAction.close])
  | Key.other _ => ([], [])

/- Helper lemmas about findNotifier. -/

theorem findNotifier_cons (k : Nat) (n : NotifierState)
    (rest : List (Nat × NotifierState)) (fd : Nat) :
    findNotifier ((k, n) :: rest) fd =
      if k = fd then some n else findNotifier rest fd := rfl

theorem findNotifier_append_of_none (l : List (Nat × NotifierState)) (fd : Nat)
    (tl : List (Nat × NotifierState)) (h : findNotifier l fd = none) :
    findNotifier (l ++ tl) fd = findNotifier tl fd := by
  induction l with
  | nil => rfl
  | cons p rest ih =>
    cases p with
    | mk k n =>
      rw [findNotifier_cons] at h
      by_cases hk : k = fd
      · simp [hk] at h
      · rw [if_neg hk] at h
        rw [List.cons_append, findNotifier_cons, if_neg hk]
        exact ih h

theorem findNotifier_filter_ne (l : List (Nat × NotifierState)) (fd : Nat) :
    findNotifier (l.filter fun p => p.1 != fd) fd = none := by
  induction l with
  | nil => rfl
  | cons p rest ih =>
    cases p with
    | mk k n =>
      by_cases hk : k = fd
      · rw [List.filter_cons, if_neg (by simp [hk])]
        exact ih
      · rw [List.filter_cons, if_pos (by simp [hk]), findNotifier_cons, if_neg hk]
        exact ih

/- Helper lemmas about the events of a redraw / paint cycle. -/

theorem screenDraw_inj :
    Function.Injective fun p : Coord × Nat =>
      RenderEvent.screenDraw p.1.1 p.1.2 p.2 := by
  intro a b hab
  cases a with
  | mk ac av =>
    cases b with
    | mk bc bv =>
      cases ac; cases bc
      simp only [RenderEvent.screenDraw.injEq] at hab
      simp [hab.1, hab.2.1, hab.2.2]

theorem scaleCopy_not_mem_redrawEvents (w : PaintWidget) :
    RenderEvent.scaleCopy ∉ redrawEvents w := by
  unfold redrawEvents
  intro h
  rcases List.mem_append.mp h with h1 | h2
  · rcases List.mem_map.mp h1 with ⟨p, _, hp⟩
    cases hp
  · by_cases hv : w.hasVnc <;> simp [hv] at h2

theorem count_screenDraw_redrawEvents (w : PaintWidget) (hnd : keysNodup w.pixels)
    (p : Coord × Nat) (hp : p ∈ w.pixels) :
    (redrawEvents w).count (RenderEvent.screenDraw p.1.1 p.1.2 p.2) = 1 := by
  unfold redrawEvents
  rw [List.count_append]
  have h1 : (w.pixels.map fun q : Coord × Nat =>
      RenderEvent.screenDraw q.1.1 q.1.2 q.2).count
        (RenderEvent.screenDraw p.1.1 p.1.2 p.2) = 1 := by
    rw [List.count_map_of_injective _ _ screenDraw_inj p]
    exact List.count_eq_one_of_mem (List.Nodup.of_map Prod.fst hnd) hp
  have h2 : (if w.hasVnc then [RenderEvent.vncDiff w.pixels] else []).count
      (RenderEvent.screenDraw p.1.1 p.1.2 p.2) = 0 := by
    by_cases hv : w.hasVnc <;> simp [hv]
  rw [h1, h2]

theorem count_vncDiff_redrawEvents (w : PaintWidget) :
    (redrawEvents w).count (RenderEvent.vncDiff w.pixels) =
      if w.hasVnc then 1 else 0 := by
  unfold redrawEvents
  rw [List.count_append]
  have h1 : (w.pixels.map fun q : Coord × Nat =>
      RenderEvent.screenDraw q.1.1 q.1.2 q.2).count (RenderEvent.vncDiff w.pixels) = 0 := by
    rw [List.count_eq_zero]
    intro hmem
    rcases List.mem_map.mp hmem with ⟨q, _, hq⟩
    cases hq
  have h2 : (if w.hasVnc then [RenderEvent.vncDiff w.pixels] else []).count
      (RenderEvent.vncDiff w.pixels) = 0 + (if w.hasVnc then 1 else 0) := by
    by_cases hv : w.hasVnc <;> simp [hv]
  rw [h1, h2]
  simp

/-- C9: on every paint cycle, the scaling copy of the off-screen pixmap
is performed exactly once when the magnification factor `pixel_size` is
not 1, and never when it is 1 (the pixmap is then blitted unscaled). -/
theorem paintEvent_scales_iff_pixel_size_ne_one (w : PaintWidget) :
    ((paintEvent w).2.count RenderEvent.scaleCopy =
       if w.pixel_size ≠ 1 then 1 else 0) ∧
    (RenderEvent.scaleCopy ∈ (paintEvent w).2 ↔ w.pixel_size ≠ 1) := by
  have hcount : (paintEvent w).2.count RenderEvent.scaleCopy =
      if w.pixel_size ≠ 1 then 1 else 0 := by
    unfold paintEvent
    by_cases hs : w.pixel_size = 1 <;> by_cases hp : w.pixels.isEmpty <;>
      simp [hp, hs, List.count_append,
        List.count_eq_zero.mpr (scaleCopy_not_mem_redrawEvents w)]
  refine ⟨hcount, ?_⟩
  constructor
  · intro hmem hs1
    rw [if_neg (not_not_intro hs1)] at hcount
    exact (List.count_eq_zero.mp hcount) hmem
  · intro hs
    rw [if_pos hs] at hcount
    by_contra hmem
    rw [List.count_eq_zero.mpr hmem] at hcount
    exact Nat.zero_ne_one hcount

/-- C10: `PaintWidget.update(x, y, w, h)` requests a sub-rectangle
repaint only when all four arguments are truthy (present and
non-zero); when any is 0 or omitted — in particular when the origin of
the region lies on row 0 or column 0 — a full-widget repaint is
requested; in both cases the call returns true exactly when the dirty
set is non-empty. -/
theorem update_region_semantics (pw : PaintWidget) (x y w h : Option Int) :
    ((PaintWidget.update pw x y w h).1 ≠ Repaint.full ↔
       (truthy x && truthy y && truthy w && truthy h) = true) ∧
    ((truthy x && truthy y && truthy w && truthy h) = true →
       (PaintWidget.update pw x y w h).1 =
         Repaint.rect (x.getD 0) (y.getD 0) (w.getD 0) (h.getD 0)) ∧
    (x = some 0 → (PaintWidget.update pw x y w h).1 = Repaint.full) ∧
    (y = some 0 → (PaintWidget.update pw x y w h).1 = Repaint.full) ∧
    ((PaintWidget.update pw x y w h).2 = true ↔ pw.pixels ≠ []) := by
  unfold PaintWidget.update
  by_cases hc : (truthy x && truthy y && truthy w && truthy h) = true
  · rw [if_pos hc]
    refine ⟨⟨fun _ => hc, fun _ hfull => by cases hfull⟩, fun _ => rfl, ?_, ?_, ?_⟩
    · intro hx
      subst hx
      simp [truthy] at hc
    · intro hy
      subst hy
      simp [truthy] at hc
    · simp [List.isEmpty_iff]
  · rw [if_neg hc]
    refine ⟨⟨fun hne => absurd rfl hne, fun htr => absurd htr hc⟩,
      fun htr => absurd htr hc, fun _ => rfl, fun _ => rfl, ?_⟩
    simp [List.isEmpty_iff]

/-- C10 witness: with a one-pixel dirty set and a region whose origin
lies on row 0, a full repaint is requested and the call returns true. -/
theorem update_region_semantics_witness :
    (some (0 : Int) = some (0 : Int)) ∧
    (PaintWidget.update
      { pixels := [((1, 1), 7)], mPixmap := fun _ => 0,
        workingSnapshot := fun _ => 0, pixel_size := 1, hasVnc := false }
      (some 0) (some 1) (some 2) (some 3)).1 = Repaint.full :=
  ⟨rfl,
    (update_region_semantics
      { pixels := [((1, 1), 7)], mPixmap := fun _ => 0,
        workingSnapshot := fun _ => 0, pixel_size := 1, hasVnc := false }
      (some 0) (some 1) (some 2) (some 3)).2.2.1 rfl⟩

/-- C4: the readiness dispatch wrapper converts the ReadError
exhaustion signal into exactly one session-close request (no retry, no
other state change), independently of how many notifiers are
registered; every other exception propagates to the caller unchanged. -/
theorem klass_can_read_semantics (st : ScreenState) (e : Nat) :
    klass_can_read st CanReadResult.readError =
      Except.ok (st, [AppAction.close]) ∧
    klass_can_read st CanReadResult.ok = Except.ok (st, []) ∧
    klass_can_read st (CanReadResult.raised e) = Except.error e :=
  ⟨rfl, rfl, rfl⟩

/-- C6: the key table of `Screen._key_event`: Left forwards button
code 1, Right forwards button code 2, Down forwards BOTH codes with
the same press state, and any other (non-quit) key forwards nothing
and requests nothing. -/
theorem key_event_button_table (pressed : Bool) (c : Nat) :
    key_event Key.left pressed = ([⟨BUTTON_LEFT, pressed⟩], []) ∧
    key_event Key.right pressed = ([⟨BUTTON_RIGHT, pressed⟩], []) ∧
    key_event Key.down pressed =
      ([⟨BUTTON_LEFT, pressed⟩, ⟨BUTTON_RIGHT, pressed⟩], []) ∧
    BUTTON_LEFT = 1 ∧ BUTTON_RIGHT = 2 ∧
    key_event (Key.other c) pressed = ([], []) :=
  ⟨rfl, rfl, rfl, rfl, rfl, rfl⟩

/-- C7: the quit key requests a session close on release only, never
on press, and forwards no button command in either case. -/
theorem key_event_quit_close_on_release_only :
    key_event Key.qkey true = ([], []) ∧
    key_event Key.qkey false = ([], [AppAction.close]) ∧
    ∀ pressed, (key_event Key.qkey pressed).1 = [] :=
  ⟨rfl, rfl, fun pressed => by cases pressed <;> rfl⟩

/-- C1: flushing a surface with pending writes applies every dirty
`(x,y,color)` to the committed pixmap and to the working snapshot,
delivers each triple exactly once to the on-screen target
(`drawPoint`), pushes the identical raw unscaled diff exactly once to
the mirror sink when one is present (and never otherwise), and leaves
the dirty set empty afterwards. -/
theorem paintEvent_flush_broadcast (w : PaintWidget)
    (hne : w.pixels ≠ []) (hnd : keysNodup w.pixels) :
    (∀ p ∈ w.pixels,
       (paintEvent w).1.mPixmap p.1 = p.2 ∧
       (paintEvent w).1.workingSnapshot p.1 = p.2 ∧
       (paintEvent w).2.count (RenderEvent.screenDraw p.1.1 p.1.2 p.2) = 1) ∧
    ((paintEvent w).2.count (RenderEvent.vncDiff w.pixels) =
       if w.hasVnc then 1 else 0) ∧
    (paintEvent w).1.pixels = [] := by
  have hpe : ¬ (w.pixels.isEmpty = true) := by
    simpa [List.isEmpty_iff] using hne
  have hpair : paintEvent w =
      ({ w with
          mPixmap := applyPixels w.mPixmap w.pixels,
          workingSnapshot := screenshot_update_pixels w.workingSnapshot w.pixels,
          pixels := [] },
        redrawEvents w ++
          (if w.pixel_size ≠ 1 then [RenderEvent.scaleCopy] else []) ++
          [RenderEvent.blit]) := by
    unfold paintEvent
    rw [if_neg hpe]
  rw [hpair]
  refine ⟨?_, ?_, rfl⟩
  · intro p hp
    have hp' : (p.1, p.2) ∈ w.pixels := by
      rw [Prod.mk.eta]
      exact hp
    refine ⟨applyPixels_mem _ _ p.1 p.2 hnd hp',
      applyPixels_mem _ _ p.1 p.2 hnd hp', ?_⟩
    rw [List.count_append, List.count_append,
      count_screenDraw_redrawEvents w hnd p hp]
    have h2 : (if w.pixel_size ≠ 1 then [RenderEvent.scaleCopy] else []).count
        (RenderEvent.screenDraw p.1.1 p.1.2 p.2) = 0 := by
      by_cases hs : w.pixel_size = 1 <;> simp [hs]
    rw [h2]
    simp
  · rw [List.count_append, List.count_append, count_vncDiff_redrawEvents w]
    have h2 : (if w.pixel_size ≠ 1 then [RenderEvent.scaleCopy] else []).count
        (RenderEvent.vncDiff w.pixels) = 0 := by
      by_cases hs : w.pixel_size = 1 <;> simp [hs]
    rw [h2]
    simp

/-- A concrete widget state with one pending write and a mirror sink. -/
def paintWidgetEx : PaintWidget where
  pixels := [((0, 0), 5)]
  mPixmap := fun _ => 0
  workingSnapshot := fun _ => 0
  pixel_size := 2
  hasVnc := true

/-- C1 witness: the flush theorem evaluated on a concrete surface with
one pending write and a mirror sink present. -/
theorem paintEvent_flush_broadcast_witness :
    paintWidgetEx.pixels ≠ [] ∧ keysNodup paintWidgetEx.pixels ∧
    (paintEvent paintWidgetEx).1.pixels = [] ∧
    (paintEvent paintWidgetEx).1.mPixmap (0, 0) = 5 ∧
    (paintEvent paintWidgetEx).2.count
      (RenderEvent.vncDiff paintWidgetEx.pixels) = 1 := by
  have h := paintEvent_flush_broadcast paintWidgetEx (by decide) (by decide)
  exact ⟨by decide, by decide, h.2.2,
    (h.1 ((0, 0), 5) (by decide)).1, h.2.1.trans (by decide)⟩

/-- Zeta-reduced equation for `mousePressEvent`: the press stores the
event position and forwards iff the translated point is in bounds (the
translation and bounds check read only the model fields, which the
store does not change). -/
theorem mousePressEvent_def (a : AppState) (rawX rawY : Int) :
    mousePressEvent a rawX rawY =
      if inBounds a (translate a (rawX, rawY))
      then ({ a with mouse_offset := some (rawX, rawY) },
            some ⟨(translate a (rawX, rawY)).1,
                  (translate a (rawX, rawY)).2, true⟩)
      else ({ a with mouse_offset := some (rawX, rawY) }, none) := rfl

/-- C2 (amended as the code forces): a press event stores its own raw
position and forwards the touch command `(tx, ty, True)` exactly when
the translated point is in bounds, with
`tx = fdiv rawX pixel_size - (box_position_x + 1)` (floor division)
and symmetrically for `ty`; a RELEASE event, however, translates the
STORED press position (the release event raw position is ignored),
filtered by the same bounds check; a release with no prior press
raises (`AttributeError`). -/
theorem mouse_translation_amended (a : AppState) (rawX rawY : Int) :
    translate a (rawX, rawY) =
      (rawX.fdiv a.pixel_size - (a.box_position_x + 1),
       rawY.fdiv a.pixel_size - (a.box_position_y + 1)) ∧
    (mousePressEvent a rawX rawY).1 =
      { a with mouse_offset := some (rawX, rawY) } ∧
    ((mousePressEvent a rawX rawY).2 =
       if inBounds a (translate a (rawX, rawY))
       then some ⟨(translate a (rawX, rawY)).1,
                  (translate a (rawX, rawY)).2, true⟩
       else none) ∧
    (∀ m, a.mouse_offset = some m →
       mouseReleaseEvent a rawX rawY =
         some (a, if inBounds a (translate a m)
                  then some ⟨(translate a m).1, (translate a m).2, false⟩
                  else none)) ∧
    (a.mouse_offset = none → mouseReleaseEvent a rawX rawY = none) := by
  refine ⟨rfl, ?_, ?_, ?_, ?_⟩
  · rw [mousePressEvent_def]
    split <;> rfl
  · rw [mousePressEvent_def]
    by_cases hb : inBounds a (translate a (rawX, rawY))
    · rw [if_pos hb, if_pos hb]
    · rw [if_neg hb, if_neg hb]
  · intro m hm
    unfold mouseReleaseEvent get_x_y
    rw [hm]
    rfl
  · intro hm
    unfold mouseReleaseEvent get_x_y
    rw [hm]
    rfl

/-- A concrete App state: Stax-like 128x128 screen, pixel scale 2, box
offset (3,3), with a press position (8,8) stored. -/
def appEx : AppState where
  width := 128
  height := 128
  pixel_size := 2
  box_position_x := 3
  box_position_y := 3
  mouse_offset := some (8, 8)

/-- C2 counterexample: after a press stored at raw (8,8), a release
event whose own raw position is (0,0) is NOT translated from (0,0)
(which would give tx = ty = -4, out of bounds, hence dropped as the
claim states); the code instead translates the stored press position
and forwards (0,0,False). `mouseReleaseEventSpec` is the release
behaviour worded by the claim. -/
theorem release_translation_claim_counterexample :
    mouseReleaseEvent appEx 0 0 = some (appEx, some ⟨0, 0, false⟩) ∧
    mouseReleaseEventSpec appEx 0 0 = none :=
  ⟨by decide, by decide⟩

/-- C2 witness: the amended theorem evaluated at the concrete state
`appEx` and a release, discharging the stored-press hypothesis. -/
theorem mouse_translation_amended_witness :
    appEx.mouse_offset = some (8, 8) ∧
    mouseReleaseEvent appEx 0 0 = some (appEx, some ⟨0, 0, false⟩) := by
  refine ⟨rfl, ?_⟩
  have h := (mouse_translation_amended appEx 0 0).2.2.2.1 (8, 8) rfl
  rw [h]
  decide

/-- C3 counterexample: two release events with DIFFERENT raw positions
(0,0) and (50,50), after the same press stored at (8,8), produce the
same forwarded command — the release event own raw position is never
consulted — although the translation the claim prescribes
distinguishes them ((0,0) is dropped, (50,50) forwards (21,21)). -/
theorem release_independence_claim_counterexample :
    mouseReleaseEvent appEx 0 0 = mouseReleaseEvent appEx 50 50 ∧
    mouseReleaseEventSpec appEx 0 0 ≠ mouseReleaseEventSpec appEx 50 50 ∧
    mouseReleaseEventSpec appEx 50 50 = some ⟨21, 21, false⟩ :=
  ⟨by decide, by decide, by decide⟩

/-- C3 (amended as the code forces): the release after a press at raw
(pX,pY) translates the STORED press position — not the release event
own raw position (rX,rY), on which the result does not depend — and is
filtered by the same bounds check, independently of whether the press
itself was forwarded. -/
theorem mouse_release_uses_stored_press (a : AppState) (pX pY rX rY : Int) :
    mouseReleaseEvent (mousePressEvent a pX pY).1 rX rY =
      some ((mousePressEvent a pX pY).1,
        if inBounds a (translate a (pX, pY))
        then some ⟨(translate a (pX, pY)).1, (translate a (pX, pY)).2, false⟩
        else none) := by
  have hoff : (mousePressEvent a pX pY).1 =
      { a with mouse_offset := some (pX, pY) } := by
    rw [mousePressEvent_def]
    split <;> rfl
  rw [hoff]
  unfold mouseReleaseEvent get_x_y
  rfl

/-- C5: registering an fd that is already registered fails fatally
(the assert), and registering again after a remove of the same fd
succeeds and creates a fresh enabled entry. -/
theorem notifier_register_unique_and_reusable (st : ScreenState) (fd : Nat) :
    (∀ st1, add_notifier st fd = some st1 → add_notifier st1 fd = none) ∧
    (∀ r : ScreenState × List TeardownStep, remove_notifier st fd = some r →
       findNotifier r.1.notifiers fd = none ∧
       add_notifier r.1 fd = some ⟨r.1.notifiers ++ [(fd, ⟨true⟩)]⟩ ∧
       findNotifier (r.1.notifiers ++ [(fd, ⟨true⟩)]) fd = some ⟨true⟩) := by
  constructor
  · intro st1 h
    unfold add_notifier at h ⊢
    by_cases hf : (findNotifier st.notifiers fd).isSome
    · rw [if_pos hf] at h
      cases h
    · rw [if_neg hf] at h
      have hnone : findNotifier st.notifiers fd = none :=
        Option.not_isSome_iff_eq_none.mp hf
      cases h
      have hfind : findNotifier (st.notifiers ++ [(fd, ⟨true⟩)]) fd =
          some ⟨true⟩ := by
        rw [findNotifier_append_of_none _ _ _ hnone, findNotifier_cons,
          if_pos rfl]
      rw [if_pos (by rw [hfind]; rfl)]
  · intro r h
    unfold remove_notifier at h
    cases he : enable_notifier st fd false with
    | none =>
      rw [he] at h
      cases h
    | some st1 =>
      rw [he] at h
      cases h
      have hnone : findNotifier
          (st1.notifiers.filter fun p => p.1 != fd) fd = none :=
        findNotifier_filter_ne _ _
      refine ⟨hnone, ?_, ?_⟩
      · unfold add_notifier
        rw [if_neg (by rw [hnone]; simp)]
      · rw [findNotifier_append_of_none _ _ _ hnone, findNotifier_cons,
          if_pos rfl]

/-- C5 witness: the registration theorem evaluated on a concrete
single-entry table, discharging both hypotheses. -/
theorem notifier_register_witness :
    add_notifier ⟨[]⟩ 5 = some ⟨[(5, ⟨true⟩)]⟩ ∧
    add_notifier ⟨[(5, ⟨true⟩)]⟩ 5 = none ∧
    remove_notifier ⟨[(5, ⟨true⟩)]⟩ 5 =
      some (⟨[]⟩, [TeardownStep.disableDelivery 5, TeardownStep.detach 5,
                   TeardownStep.disconnect 5]) ∧
    add_notifier (⟨[]⟩ : ScreenState) 5 = some ⟨[(5, ⟨true⟩)]⟩ := by
  refine ⟨by decide, ?_, by decide, ?_⟩
  · exact (notifier_register_unique_and_reusable ⟨[]⟩ 5).1 ⟨[(5, ⟨true⟩)]⟩
      (by decide)
  · have h := (notifier_register_unique_and_reusable ⟨[(5, ⟨true⟩)]⟩ 5).2
      (⟨[]⟩, [TeardownStep.disableDelivery 5, TeardownStep.detach 5,
              TeardownStep.disconnect 5]) (by decide)
    exact h.2.1

/-- C8: a successful remove performs its micro-steps in the order
disable, detach, disconnect (delivery is disabled before the entry is
detached), and afterwards the fd is no longer registered, so no
readiness callback for it can fire. -/
theorem remove_notifier_disables_then_detaches (st : ScreenState) (fd : Nat)
    (r : ScreenState × List TeardownStep) (h : remove_notifier st fd = some r) :
    r.2 = [TeardownStep.disableDelivery fd, TeardownStep.detach fd,
           TeardownStep.disconnect fd] ∧
    findNotifier r.1.notifiers fd = none ∧
    canDeliver r.1 fd = false := by
  unfold remove_notifier at h
  cases he : enable_notifier st fd false with
  | none =>
    rw [he] at h
    cases h
  | some st1 =>
    rw [he] at h
    cases h
    refine ⟨rfl, findNotifier_filter_ne _ _, ?_⟩
    unfold canDeliver
    rw [findNotifier_filter_ne]

/-- C8 witness: the teardown-order theorem evaluated on a concrete
single-entry table. -/
theorem remove_notifier_order_witness :
    remove_notifier ⟨[(3, ⟨true⟩)]⟩ 3 =
      some (⟨[]⟩, [TeardownStep.disableDelivery 3, TeardownStep.detach 3,
                   TeardownStep.disconnect 3]) ∧
    canDeliver (⟨[]⟩ : ScreenState) 3 = false :=
  ⟨by decide,
    (remove_notifier_disables_then_detaches ⟨[(3, ⟨true⟩)]⟩ 3
      (⟨[]⟩, [TeardownStep.disableDelivery 3, TeardownStep.detach 3,
              TeardownStep.disconnect 3]) (by decide)).2.2⟩
